import Mathlib

/-!
Shallow embedding of the `ExperimentData` container of
`qiskit_experiments/framework/experiment_data.py` and proofs about the
behaviour of its operations.

Python dictionaries with unique string keys are modelled as insertion-ordered
association lists `List (String × α)`; mutation of `self` is modelled by
explicit state passing; code that can raise returns `Except String α`;
logging calls are modelled as lists of warning strings returned alongside the
new state.
-/

/-- Status enumeration of `qiskit.providers.jobstatus.JobStatus`. -/
inductive JobStatus
  | INITIALIZING
  | QUEUED
  | VALIDATING
  | RUNNING
  | CANCELLED
  | DONE
  | ERROR
  deriving DecidableEq, Repr

/-- Status enumeration `AnalysisStatus` (experiment_data.py, class AnalysisStatus). -/
inductive AnalysisStatus
  | QUEUED
  | RUNNING
  | CANCELLED
  | DONE
  | ERROR
  deriving DecidableEq, Repr

/-- Status enumeration `ExperimentStatus` (experiment_data.py, class ExperimentStatus). -/
inductive ExperimentStatus
  | EMPTY
  | INITIALIZING
  | VALIDATING
  | QUEUED
  | RUNNING
  | CANCELLED
  | POST_PROCESSING
  | DONE
  | ERROR
  deriving DecidableEq, Repr

/-- The dataclass `AnalysisCallback` (experiment_data.py, end of file): name,
callback id, status, optional error message, and the cancellation `Event`
(modelled by the boolean `eventSet`, whether the event has been set). -/
structure AnalysisCallback where
  name : String := ""
  callback_id : String := ""
  status : AnalysisStatus := AnalysisStatus.QUEUED
  error_msg : Option String := none
  eventSet : Bool := false
  deriving DecidableEq, Repr

/-- One entry of `ExperimentData._result_data`: a free-form record (payload
abstracted to a string) optionally tagged with the id of the job that
produced it (`data["job_id"] = job_id` in `_add_result_data`). -/
structure ResultRecord where
  payload : String
  job_id : Option String := none
  deriving DecidableEq, Repr

/-- The class `FigureData` (experiment_data.py): raw figure payload
(SVG bytes abstracted to a string), optional name, metadata. -/
structure FigureData where
  figure : String
  name : Option String := none
  metadata : List (String × String) := []
  deriving DecidableEq, Repr

/-- Model of the remote `IBMExperimentService` consumed by the persistence
bridge: each remote call is abstracted to whether it succeeds (returns) or
raises, and `figure_fetch` to the payload it returns on success. -/
structure ServiceModel where
  create_or_update_experiment_ok : Bool := true
  create_analysis_results_ok : Bool := true
  create_figures_ok : Bool := true
  delete_analysis_result_ok : String → Bool := fun _ => true
  delete_figure_ok : String → Bool := fun _ => true
  figure_fetch : String → Option String := fun _ => none

/-- The state of one `ExperimentData` container: its identity, the
thread-safe collections (`ThreadSafeOrderedDict`s modelled as ordered
association lists, `ThreadSafeList` as a list), the two pending-deletion
deques, and the persistence-related flags.  A stored job handle is
abstracted to the status it currently reports; a `None` placeholder job
(registered by `_add_result_data`) is `none`.  A job/analysis future is
abstracted to its `done()` flag. -/
structure ExperimentData where
  experiment_id : String := ""
  experiment_type : String := ""
  tags : List String := []
  created_in_db : Bool := false
  service : Option ServiceModel := none
  result_data : List ResultRecord := []
  jobs : List (String × Option JobStatus) := []
  job_ids : List String := []
  job_futures : List (String × Bool) := []
  analysis_callbacks : List (String × AnalysisCallback) := []
  analysis_futures : List (String × Bool) := []
  figures : List (String × FigureData) := []
  analysis_results : List String := []
  deleted_figures : List String := []
  deleted_analysis_results : List String := []

/-- A fresh `ExperimentData()` with no jobs, results, callbacks or figures. -/
def emptyExperimentData : ExperimentData := {}

/-- Membership test for an association-list key (`k in d` on a Python dict). -/
def containsKey {α : Type} (l : List (String × α)) (k : String) : Bool :=
  l.any fun kv => kv.1 == k

/-- Lookup in an association list (`d.get(k)` / `d[k]` on a Python dict). -/
def lookupKey {α : Type} : List (String × α) → String → Option α
  | [], _ => none
  | kv :: rest, k => if kv.1 == k then some kv.2 else lookupKey rest k

/-- Insert-or-overwrite for an association list (`d[k] = v` on a Python
dict, preserving insertion order of an existing key). -/
def setKey {α : Type} : List (String × α) → String → α → List (String × α)
  | [], k, v => [(k, v)]
  | kv :: rest, k, v => if kv.1 == k then (k, v) :: rest else kv :: setKey rest k v

section C2Locks

/-- The two lock objects named in the `with` statement of
`add_analysis_callback` (experiment_data.py line 915). -/
inductive LockRef
  | jobFuturesLock
  | analysisFuturesLock
  deriving DecidableEq, Repr

/-- Python truthiness of a `threading.RLock` object: always truthy. -/
def lockTruthy : LockRef → Bool := fun _ => true

/-- Python `a and b`: returns `a` when `a` is falsy, otherwise returns `b`. -/
def pyAnd (a b : LockRef) : LockRef :=
  if lockTruthy a then b else a

/-- A `with E:` statement acquires exactly the one context manager that the
expression `E` evaluates to. -/
def locksAcquiredBy (e : LockRef) : List LockRef := [e]

/-- The locks held during the body of `add_analysis_callback`, whose source
reads `with self._job_futures.lock and self._analysis_futures.lock:`
(experiment_data.py line 915). -/
def addAnalysisCallbackLocksHeld : List LockRef :=
  locksAcquiredBy (pyAnd LockRef.jobFuturesLock LockRef.analysisFuturesLock)

end C2Locks

/-- Python `str.endswith(suffix)`. -/
def strEndsWith (s suffix : String) : Bool :=
  decide (suffix.data <:+ s.data)

/-! ### Tags (`tags.setter`, experiment_data.py lines 369-376)

The setter stores `np.unique(new_tags).tolist()`: the distinct elements of
the input, in sorted order.  `npUnique` computes exactly that, by inserting
each element into a sorted duplicate-free list. -/

/-- Lexicographic comparison of two character lists by code point, the order
`np.unique` sorts by. -/
def charListLt : List Char → List Char → Bool
  | [], [] => false
  | [], _ :: _ => true
  | _ :: _, [] => false
  | a :: as, b :: bs =>
      if a.toNat < b.toNat then true
      else if b.toNat < a.toNat then false
      else charListLt as bs

/-- Lexicographic comparison of two strings by code point. -/
def strLtB (a b : String) : Bool := charListLt a.data b.data

/-- Insert a string into a sorted duplicate-free list, keeping it sorted and
duplicate-free. -/
def insertUnique (x : String) : List String → List String
  | [] => [x]
  | y :: ys =>
      if x = y then y :: ys
      else if strLtB x y then x :: y :: ys
      else y :: insertUnique x ys

/-- `np.unique(l).tolist()`: the distinct elements of `l` in sorted order. -/
def npUnique (l : List String) : List String :=
  l.foldr insertUnique []

/-- The `tags` property setter: `self._db_data.tags = np.unique(new_tags).tolist()`. -/
def setTags (s : ExperimentData) (new_tags : List String) : ExperimentData :=
  { s with tags := npUnique new_tags }

/-! ### Job ingestion (`add_jobs`, `_add_result_data`, `add_data`) -/

/-- The placeholder registration inside `_add_result_data` (experiment_data.py
lines 1008-1012): when the result's job id is unknown, store a `None` job
handle under it and append it to the job-id list. -/
def applyMergeResult (s : ExperimentData) (jid : String) : ExperimentData :=
  if containsKey s.jobs jid then s
  else { s with jobs := s.jobs ++ [(jid, none)], job_ids := s.job_ids ++ [jid] }

/-- `_add_result_data(result, job_id)` (experiment_data.py lines 1000-1028):
register the job id if missing, then append one tagged record per
per-circuit result entry. -/
def add_result_data (s : ExperimentData) (jid : String) (records : List String) : ExperimentData :=
  let s1 := applyMergeResult s jid
  { s1 with result_data :=
      s1.result_data ++ records.map (fun r => { payload := r, job_id := some jid }) }

/-- One element of the argument list of `add_data`: a plain dict record, a
qiskit `Result` (abstracted to its job id and per-circuit payloads), or a
value of any other type (which `add_data` rejects). -/
inductive Datum
  | dict (d : String)
  | result (job_id : String) (records : List String)
  | invalid (typeName : String)
  deriving DecidableEq, Repr

/-- Whether a `Datum` is of a type `add_data` rejects. -/
def Datum.isInvalid : Datum → Bool
  | .invalid _ => true
  | _ => false

/-- The loop body of `add_data` (experiment_data.py lines 753-761): each dict
is appended to `result_data`, each `Result` goes through `_add_result_data`,
and anything else raises `TypeError` — leaving the records already appended
in place, since the list is mutated element by element. -/
def addDataLoop (s : ExperimentData) : List Datum → ExperimentData × Option String
  | [] => (s, none)
  | .dict d :: rest =>
      addDataLoop { s with result_data := s.result_data ++ [{ payload := d, job_id := none }] } rest
  | .result jid recs :: rest => addDataLoop (add_result_data s jid recs) rest
  | .invalid t :: _ => (s, some ("Invalid data type " ++ t ++ "."))

/-- `add_data(data)` on an input list (experiment_data.py lines 726-761); the
second component is the `TypeError` message when one was raised. -/
def add_data (s : ExperimentData) (data : List Datum) : ExperimentData × Option String :=
  addDataLoop s data

/-- The per-job body of `add_jobs` (experiment_data.py lines 810-823): a job
whose id is already stored is skipped with a warning (second component
`true`); otherwise the id is appended to the job-id list, the handle stored,
and a retrieval future submitted if none exists. -/
def applyAddJob (s : ExperimentData) (jid : String) (st : JobStatus) : ExperimentData × Bool :=
  if containsKey s.jobs jid then (s, true)
  else
    ({ s with
        job_ids := s.job_ids ++ [jid],
        jobs := s.jobs ++ [(jid, some st)],
        job_futures :=
          if containsKey s.job_futures jid then s.job_futures
          else s.job_futures ++ [(jid, false)] },
      false)

/-- An operation that registers a job id: one job of an `add_jobs` call, or a
result merge that registers a placeholder id (`_add_result_data`). -/
inductive JobOp
  | addJob (jid : String) (st : JobStatus)
  | mergeResult (jid : String)
  deriving DecidableEq, Repr

/-- The job id an operation submits. -/
def JobOp.jid : JobOp → String
  | .addJob j _ => j
  | .mergeResult j => j

/-- Run a sequence of job-registering operations. -/
def runJobOps (s : ExperimentData) : List JobOp → ExperimentData
  | [] => s
  | .addJob j st :: rest => runJobOps (applyAddJob s j st).1 rest
  | .mergeResult j :: rest => runJobOps (applyMergeResult s j) rest

/-! ### Status aggregation (`status`, `job_status`, `analysis_status`,
experiment_data.py lines 1795-1926) -/

/-- The emptiness test opening `status()` (lines 1819-1831): all of
`_result_data`, `_jobs`, `_job_futures`, `_analysis_callbacks`,
`_analysis_futures`, `_figures`, `_analysis_results` are empty. -/
def allContainersEmpty (s : ExperimentData) : Bool :=
  s.result_data.isEmpty && s.jobs.isEmpty && s.job_futures.isEmpty &&
    s.analysis_callbacks.isEmpty && s.analysis_futures.isEmpty &&
    s.figures.isEmpty && s.analysis_results.isEmpty

/-- Worst-first precedence order of `job_status()` (lines 1883-1897). -/
def jobStatusPrecedence : List JobStatus :=
  [.ERROR, .CANCELLED, .RUNNING, .QUEUED, .VALIDATING, .INITIALIZING]

/-- `job_status()` (lines 1853-1897): `DONE` when there are no jobs,
otherwise the first status of the precedence list reported by some stored
(non-placeholder) job handle, defaulting to `DONE`. -/
def job_status (s : ExperimentData) : JobStatus :=
  if s.jobs.isEmpty then .DONE
  else
    let statuses := s.jobs.filterMap Prod.snd
    (jobStatusPrecedence.find? fun st => statuses.contains st).getD .DONE

/-- Worst-first precedence order of `analysis_status()` (lines 1914-1926). -/
def analysisStatusPrecedence : List AnalysisStatus :=
  [.ERROR, .CANCELLED, .RUNNING, .QUEUED]

/-- `analysis_status()` (lines 1899-1926). -/
def analysis_status (s : ExperimentData) : AnalysisStatus :=
  let statuses := s.analysis_callbacks.map fun kv => kv.2.status
  (analysisStatusPrecedence.find? fun st => statuses.contains st).getD .DONE

/-- The dict lookup on `job_status()` inside `status()` (lines 1834-1842);
`none` models the suppressed `KeyError` for `DONE`. -/
def statusOfJobStatus : JobStatus → Option ExperimentStatus
  | .INITIALIZING => some .INITIALIZING
  | .QUEUED => some .QUEUED
  | .VALIDATING => some .VALIDATING
  | .RUNNING => some .RUNNING
  | .CANCELLED => some .CANCELLED
  | .ERROR => some .ERROR
  | .DONE => none

/-- The dict lookup on `analysis_status()` inside `status()` (lines
1844-1849); `none` models the `KeyError` caught by the `except` clause. -/
def statusOfAnalysisStatus : AnalysisStatus → Option ExperimentStatus
  | .DONE => some .DONE
  | .CANCELLED => some .CANCELLED
  | .ERROR => some .ERROR
  | .QUEUED => none
  | .RUNNING => none

/-- `status()` (experiment_data.py lines 1795-1851). -/
def statusED (s : ExperimentData) : ExperimentStatus :=
  if allContainersEmpty s then .EMPTY
  else
    match statusOfJobStatus (job_status s) with
    | some st => st
    | none =>
        match statusOfAnalysisStatus (analysis_status s) with
        | some st => st
        | none => .POST_PROCESSING

/-- The same-named experiment status for a job status (the spec's sense of
the experiment status mirroring `job_status()`). -/
def mirrorJobStatus : JobStatus → ExperimentStatus
  | .INITIALIZING => .INITIALIZING
  | .QUEUED => .QUEUED
  | .VALIDATING => .VALIDATING
  | .RUNNING => .RUNNING
  | .CANCELLED => .CANCELLED
  | .ERROR => .ERROR
  | .DONE => .DONE

/-- The same-named experiment status for an analysis status (the spec's
sense of the experiment status mirroring `analysis_status()`). -/
def mirrorAnalysisStatus : AnalysisStatus → ExperimentStatus
  | .QUEUED => .QUEUED
  | .RUNNING => .RUNNING
  | .CANCELLED => .CANCELLED
  | .DONE => .DONE
  | .ERROR => .ERROR

/-! ### The analysis-callback runner (`_run_analysis_callback`,
experiment_data.py lines 941-998) -/

/-- Apply `f` to the callback descriptor stored under `cid`
(`self._analysis_callbacks[cid]` mutation). -/
def updateCallback (l : List (String × AnalysisCallback)) (cid : String)
    (f : AnalysisCallback → AnalysisCallback) : List (String × AnalysisCallback) :=
  l.map fun kv => if kv.1 == cid then (kv.1, f kv.2) else kv

/-- The fixed prefix of the error message recorded for a failed callback
(experiment_data.py lines 992-995); the full traceback text is appended to
it. -/
def callbackErrorPrefix (eid cid : String) : String :=
  "Analysis callback failed [Experiment ID: " ++ eid ++
    "][Analysis Callback ID: " ++ cid ++ "]:\n"

/-- `_run_analysis_callback` (experiment_data.py lines 941-998).  `waitOk` is
the combined outcome of the monitored futures (`all(fut.result() for fut in
waited.done)`); `cbOutcome` is what invoking the user callback does: `.ok`
for a normal return, `.error tb` for an exception with traceback text `tb`.
The function itself raises only the `ValueError` for an unknown callback id;
a callback exception is caught and turned into an ERROR status, an error
message and a `false` success flag. -/
def runAnalysisCallback (s : ExperimentData) (callback_id : String) (waitOk : Bool)
    (cbOutcome : Except String Unit) : Except String (ExperimentData × (String × Bool)) :=
  match lookupKey s.analysis_callbacks callback_id with
  | none => .error ("No analysis callback with id " ++ callback_id)
  | some _ =>
    let cancel := !waitOk
    let cbs1 := updateCallback s.analysis_callbacks callback_id
      (fun cb => { cb with eventSet := true })
    let s1 := { s with analysis_callbacks := cbs1 }
    if cancel then
      let cbs2 := updateCallback s1.analysis_callbacks callback_id
        (fun cb => { cb with status := .CANCELLED })
      .ok ({ s1 with analysis_callbacks := cbs2 }, (callback_id, false))
    else
      let cbs2 := updateCallback s1.analysis_callbacks callback_id
        (fun cb => { cb with status := .RUNNING })
      let s2 := { s1 with analysis_callbacks := cbs2 }
      match cbOutcome with
      | .ok _ =>
          let cbs3 := updateCallback s2.analysis_callbacks callback_id
            (fun cb => { cb with status := .DONE })
          .ok ({ s2 with analysis_callbacks := cbs3 }, (callback_id, true))
      | .error tb =>
          let msg := callbackErrorPrefix s.experiment_id callback_id ++ tb
          let cbs3 := updateCallback s2.analysis_callbacks callback_id
            (fun cb => { cb with status := .ERROR, error_msg := some msg })
          .ok ({ s2 with analysis_callbacks := cbs3 }, (callback_id, false))

/-! ### Figures (`add_figures`, `figure`, experiment_data.py lines 1095-1258) -/

/-- One element of the `figures` argument of `add_figures`: a file path, an
already-wrapped `FigureData` (from a sub-experiment), or raw figure bytes /
a matplotlib figure. -/
inductive FigureInput
  | path (p : String)
  | figData (fd : FigureData)
  | raw (payload : String)
  deriving DecidableEq, Repr

/-- The name generated when neither a figure name nor a path is given
(experiment_data.py lines 1141-1145); it ends in ".svg" by construction. -/
def generatedFigureName (s : ExperimentData) : String :=
  s.experiment_type ++ "_Fig-" ++ toString s.figures.length ++ "_Exp-" ++
    s.experiment_id.take 8 ++ ".svg"

/-- The name resolution of `add_figures` (experiment_data.py lines
1136-1147): an explicitly given name, else a path, else a generated name. -/
def resolveFigName (s : ExperimentData) (figure : FigureInput)
    (figure_name : Option String) : String :=
  match figure_name with
  | some n => n
  | none =>
      match figure with
      | .path p => p
      | _ => generatedFigureName s

/-- `add_figures` for one figure (experiment_data.py lines 1095-1189,
without the optional immediate service upload): resolve the name, append
".svg" when missing (lines 1149-1151), reject an existing name unless
`overwrite`, and store the wrapped figure data under the final name. -/
def addFigure (s : ExperimentData) (figure : FigureInput) (figure_name : Option String)
    (overwrite : Bool) : Except String (ExperimentData × String) :=
  let fig_name0 := resolveFigName s figure figure_name
  let fig_name := if strEndsWith fig_name0 ".svg" then fig_name0 else fig_name0 ++ ".svg"
  let existing_figure := containsKey s.figures fig_name
  if existing_figure && !overwrite then
    .error "ExperimentEntryExists"
  else
    let figure_data :=
      match figure with
      | .figData fd => { fd with name := some fig_name }
      | .path p => ({ figure := "file:" ++ p, name := some fig_name } : FigureData)
      | .raw b => ({ figure := b, name := some fig_name } : FigureData)
    .ok ({ s with figures := setKey s.figures fig_name figure_data }, fig_name)

/-- `figure(figure_key)` for a string key (experiment_data.py lines
1222-1258, without the file-output branch): a missing key is fetched from
the service when one is configured, and the fetched figure is stored in the
`figures` mapping under the requested key as given. -/
def figureGet (s : ExperimentData) (figure_key : String) :
    Except String (ExperimentData × FigureData) :=
  match lookupKey s.figures figure_key with
  | some fd => .ok (s, fd)
  | none =>
      match s.service with
      | some svc =>
          match svc.figure_fetch figure_key with
          | some payload =>
              let fd : FigureData := { figure := payload, name := some figure_key }
              .ok ({ s with figures := setKey s.figures figure_key fd }, fd)
          | none => .error "service figure request raised"
      | none => .error "ExperimentEntryNotFound"

/-- Whether every key of the figures mapping ends in ".svg". -/
def figuresSvgInvariant (s : ExperimentData) : Bool :=
  s.figures.all fun kv => strEndsWith kv.1 ".svg"

/-! ### Persistence bridge (`save`, `save_metadata`,
`_save_experiment_metadata`, experiment_data.py lines 1404-1589) -/

/-- The warning logged when no experiment service is configured
(experiment_data.py lines 1433-1437 and 1503-1507). -/
def noServiceWarning : String :=
  "Experiment cannot be saved because no experiment service is available."

/-- The warning logged when the metadata could not be stored and the rest of
the save is skipped (experiment_data.py line 1521). -/
def abortSaveWarning : String :=
  "Could not save experiment metadata to DB, aborting experiment save"

/-- The warning logged when `create_analysis_results` raises and
`suppress_errors` holds (experiment_data.py lines 1536-1538). -/
def analysisResultsSaveWarning : String :=
  "Unable to save the experiment data: create_analysis_results failed"

/-- The warning logged when `create_or_update_experiment` raises and
`suppress_errors` holds (experiment_data.py lines 1462-1464). -/
def metadataSaveWarning : String :=
  "Unable to save the experiment data: create_or_update_experiment failed"

/-- The deletion-queue flush loop of `save()` (experiment_data.py lines
1544-1547 for analysis results and 1569-1572 for figures):

```
for item in queue.copy():
    with service_exception_to_warning():
        remote delete of item
    queue.remove(item)
```

The first argument of `flushLoop` is the live queue, the second the items of
the copy still to process.  `service_exception_to_warning` converts a raised
exception into a logged warning, so the `remove` runs whether or not the
delete succeeded; the second component collects the items whose delete
raised (and were therefore logged as warnings). -/
def flushLoop (ok : String → Bool) : List String → List String → List String × List String
  | queue, [] => (queue, [])
  | queue, r :: rest =>
      let warned := if ok r then ([] : List String) else [r]
      let next := flushLoop ok (queue.erase r) rest
      (next.1, warned ++ next.2)

/-- Flush one pending-deletion queue as `save()` does: iterate over a copy
of the queue, attempt the remote delete of each item, remove the item. -/
def flushDeletionQueue (queue : List String) (ok : String → Bool) :
    List String × List String :=
  flushLoop ok queue queue

/-- `_save_experiment_metadata(suppress_errors)` (experiment_data.py lines
1418-1466): with no service, warn and return; otherwise attempt
`create_or_update_experiment`, marking the experiment as created in the
database on success; a raised exception is logged, and re-raised only when
`suppress_errors` is false. -/
def save_experiment_metadata (s : ExperimentData) (suppress_errors : Bool) :
    Except String (ExperimentData × List String) :=
  match s.service with
  | none => .ok (s, [noServiceWarning])
  | some svc =>
      if svc.create_or_update_experiment_ok then
        .ok ({ s with created_in_db := true }, [])
      else if suppress_errors then .ok (s, [metadataSaveWarning])
      else .error "Experiment data save failed"

/-- `save_metadata()` for a single container (experiment_data.py lines
1404-1416, without the child recursion). -/
def save_metadata (s : ExperimentData) : Except String (ExperimentData × List String) :=
  save_experiment_metadata s true

/-- `save()` for a single container (experiment_data.py lines 1473-1589,
without the child recursion and the final print): abort with a warning (or
raise, when `suppress_errors` is false) when no service is configured; save
the metadata; abort when the experiment is still not created in the
database; bulk-create the analysis results; flush the pending
analysis-result deletions; create the figures (a failure here is not caught
in the source); flush the pending figure deletions. -/
def saveED (s : ExperimentData) (suppress_errors : Bool) (save_figures : Bool) :
    Except String (ExperimentData × List String) :=
  match s.service with
  | none =>
      if suppress_errors then .ok (s, [noServiceWarning])
      else .error "No service found"
  | some svc =>
      match save_experiment_metadata s suppress_errors with
      | .error e => .error e
      | .ok (s1, w1) =>
          if !s1.created_in_db then .ok (s1, w1 ++ [abortSaveWarning])
          else if !svc.create_analysis_results_ok && !suppress_errors then
            .error "Analysis result save failed"
          else
            let w2 := if svc.create_analysis_results_ok then ([] : List String)
              else [analysisResultsSaveWarning]
            let flushedResults :=
              flushDeletionQueue s1.deleted_analysis_results svc.delete_analysis_result_ok
            let s2 := { s1 with deleted_analysis_results := flushedResults.1 }
            if save_figures && !svc.create_figures_ok then .error "create_figures raised"
            else
              let flushedFigs := flushDeletionQueue s2.deleted_figures svc.delete_figure_ok
              let s3 := { s2 with deleted_figures := flushedFigs.1 }
              .ok (s3, w1 ++ w2 ++ flushedResults.2 ++ flushedFigs.2)

/-! ### Serialization entry points (`__json_encode__`, `__getstate__`,
experiment_data.py lines 2234-2301) -/

/-- `any(not fut.done() for fut in self._job_futures.values())`. -/
def anyJobFutureNotDone (s : ExperimentData) : Bool :=
  s.job_futures.any fun kv => !kv.2

/-- `any(not fut.done() for fut in self._analysis_futures.values())`. -/
def anyAnalysisFutureNotDone (s : ExperimentData) : Bool :=
  s.analysis_futures.any fun kv => !kv.2

/-- The serializable snapshot both entry points build: the result records,
the figure names (`_safe_serialize_figures` keeps the keys), and the job ids
with the handles dropped (`_safe_serialize_jobs`). -/
structure SerializedExperiment where
  result_data : List ResultRecord
  figure_names : List String
  job_ids : List String
  deriving DecidableEq, Repr

/-- Build the serializable snapshot of a container. -/
def serializeED (s : ExperimentData) : SerializedExperiment :=
  { result_data := s.result_data,
    figure_names := s.figures.map Prod.fst,
    job_ids := s.jobs.map Prod.fst }

/-- The message of the `QiskitError` raised by `__json_encode__` for
unfinished job futures (experiment_data.py lines 2236-2239). -/
def jsonEncodeJobsError : String :=
  "Not all experiment jobs have finished. Jobs must be cancelled or done to serialize experiment data."

/-- The message of the `QiskitError` raised by `__json_encode__` for
unfinished analysis futures (experiment_data.py lines 2241-2244). -/
def jsonEncodeAnalysisError : String :=
  "Not all experiment analysis has finished. Analysis must be cancelled or done to serialize experiment data."

/-- `__json_encode__` (experiment_data.py lines 2234-2268): raises while any
job or analysis future is not done, otherwise returns the snapshot. -/
def jsonEncode (s : ExperimentData) : Except String SerializedExperiment :=
  if anyJobFutureNotDone s then .error jsonEncodeJobsError
  else if anyAnalysisFutureNotDone s then .error jsonEncodeAnalysisError
  else .ok (serializeED s)

/-- The warning logged by `__getstate__` for unfinished job futures
(experiment_data.py lines 2279-2282). -/
def getstateJobsWarning : String :=
  "Not all job futures have finished. Data from running futures will not be serialized."

/-- The warning logged by `__getstate__` for unfinished analysis futures
(experiment_data.py lines 2284-2287). -/
def getstateAnalysisWarning : String :=
  "Not all analysis callbacks have finished. Results from running callbacks will not be serialized."

/-- `__getstate__` (experiment_data.py lines 2277-2301): the pickle entry
point never raises; it logs warnings for unfinished futures, drops the
future tables from the state, and returns the snapshot. -/
def getstate (s : ExperimentData) : Except String (SerializedExperiment × List String) :=
  let w1 := if anyJobFutureNotDone s then [getstateJobsWarning] else ([] : List String)
  let w2 := if anyAnalysisFutureNotDone s then [getstateAnalysisWarning] else ([] : List String)
  .ok (serializeED s, w1 ++ w2)

/-- Whether an `Except` value is an error. -/
def exceptIsError {α : Type} : Except String α → Bool
  | .error _ => true
  | .ok _ => false

/-! ### Concrete states used by witnesses and counterexamples -/

/-- A container with one unfinished job future. -/
def sOutstanding : ExperimentData :=
  { emptyExperimentData with job_futures := [("job-1", false)] }

/-- A queued callback descriptor registered under id "cid1". -/
def cbExample : AnalysisCallback :=
  { name := "f", callback_id := "cid1" }

/-- A container with the callback `cbExample` registered. -/
def sCallback : ExperimentData :=
  { emptyExperimentData with
      experiment_id := "exp-1",
      analysis_callbacks := [("cid1", cbExample)] }

/-- A service whose figure endpoint can return the figure named "foo". -/
def svcFetch : ServiceModel :=
  { figure_fetch := fun k => if k == "foo" then some "payload" else none }

/-- A container connected to `svcFetch`, with no figures stored locally. -/
def sFigService : ExperimentData :=
  { emptyExperimentData with service := some svcFetch }

/-- The figure data `figure()` builds when fetching "foo" from `svcFetch`. -/
def fdFoo : FigureData :=
  { figure := "payload", name := some "foo" }

/-- A sequence submitting job id "a" twice and merging a result with job id
"b". -/
def opsExample : List JobOp :=
  [.addJob "a" .DONE, .addJob "a" .DONE, .mergeResult "b"]

/-- A container that already stores a job under id "a". -/
def sJobA : ExperimentData :=
  { emptyExperimentData with jobs := [("a", some JobStatus.DONE)], job_ids := ["a"] }

/-- A nonempty container whose single job reports RUNNING. -/
def sRunning : ExperimentData :=
  { emptyExperimentData with jobs := [("a", some JobStatus.RUNNING)], job_ids := ["a"] }

/-- A nonempty container whose jobs are DONE and whose single callback is
CANCELLED. -/
def sCancelledAnalysis : ExperimentData :=
  { emptyExperimentData with
      jobs := [("a", some JobStatus.DONE)],
      job_ids := ["a"],
      analysis_callbacks := [("cid1", { cbExample with status := AnalysisStatus.CANCELLED })] }

/-- A nonempty container whose jobs are DONE and whose single callback is
still QUEUED. -/
def sQueuedAnalysis : ExperimentData :=
  { emptyExperimentData with
      jobs := [("a", some JobStatus.DONE)],
      job_ids := ["a"],
      analysis_callbacks := [("cid1", cbExample)] }

/-! ## Helper lemmas -/

theorem char_toNat_inj {a b : Char} (h : a.toNat = b.toNat) : a = b := by
  have hm : StrictMono Char.toNat := fun _ _ hlt => hlt
  exact hm.injective h

theorem charListLt_irrefl : ∀ l : List Char, charListLt l l = false := by
  intro l
  induction l with
  | nil => rfl
  | cons a as ih => simp [charListLt, ih]

theorem charListLt_trans : ∀ l1 l2 l3 : List Char,
    charListLt l1 l2 = true → charListLt l2 l3 = true → charListLt l1 l3 = true := by
  intro l1
  induction l1 with
  | nil =>
    intro l2 l3 h1 h2
    cases l2 with
    | nil => exact h2
    | cons b bs =>
      cases l3 with
      | nil => simp [charListLt] at h2
      | cons c cs => rfl
  | cons a as ih =>
    intro l2 l3 h1 h2
    cases l2 with
    | nil => simp [charListLt] at h1
    | cons b bs =>
      cases l3 with
      | nil => simp [charListLt] at h2
      | cons c cs =>
        simp only [charListLt] at h1 h2 ⊢
        by_cases hab : a.toNat < b.toNat
        · by_cases hbc : b.toNat < c.toNat
          · rw [if_pos (Nat.lt_trans hab hbc)]
          · rw [if_neg hbc] at h2
            by_cases hcb : c.toNat < b.toNat
            · rw [if_pos hcb] at h2; exact absurd h2 (by simp)
            · have hbceq : b.toNat = c.toNat :=
                Nat.le_antisymm (Nat.not_lt.mp hcb) (Nat.not_lt.mp hbc)
              rw [if_pos (hbceq ▸ hab)]
        · rw [if_neg hab] at h1
          by_cases hba : b.toNat < a.toNat
          · rw [if_pos hba] at h1; exact absurd h1 (by simp)
          · have habeq : a.toNat = b.toNat :=
              Nat.le_antisymm (Nat.not_lt.mp hba) (Nat.not_lt.mp hab)
            rw [if_neg hba] at h1
            by_cases hbc : b.toNat < c.toNat
            · rw [if_pos (habeq ▸ hbc)]
            · rw [if_neg hbc] at h2
              by_cases hcb : c.toNat < b.toNat
              · rw [if_pos hcb] at h2; exact absurd h2 (by simp)
              · have hbceq : b.toNat = c.toNat :=
                  Nat.le_antisymm (Nat.not_lt.mp hcb) (Nat.not_lt.mp hbc)
                rw [if_neg hcb] at h2
                have hac : a.toNat = c.toNat := habeq.trans hbceq
                rw [hac]
                simp only [Nat.lt_irrefl, if_false, if_neg (Nat.lt_irrefl c.toNat)]
                exact ih bs cs h1 h2

theorem charListLt_of_ne : ∀ l1 l2 : List Char, l1 ≠ l2 →
    charListLt l1 l2 = true ∨ charListLt l2 l1 = true := by
  intro l1
  induction l1 with
  | nil =>
    intro l2 hne
    cases l2 with
    | nil => exact absurd rfl hne
    | cons b bs => left; rfl
  | cons a as ih =>
    intro l2 hne
    cases l2 with
    | nil => right; rfl
    | cons b bs =>
      simp only [charListLt]
      by_cases hab : a.toNat < b.toNat
      · left; rw [if_pos hab]
      · by_cases hba : b.toNat < a.toNat
        · right; rw [if_pos hba]
        · have habeq : a = b :=
            char_toNat_inj (Nat.le_antisymm (Nat.not_lt.mp hba) (Nat.not_lt.mp hab))
          have hne2 : as ≠ bs := by
            intro e
            exact hne (by rw [habeq, e])
          rcases ih bs hne2 with h | h
          · left
            rw [if_neg hab, if_neg hba]
            exact h
          · right
            rw [if_neg hba, if_neg hab]
            exact h

theorem strLtB_trans {a b c : String} (h1 : strLtB a b = true) (h2 : strLtB b c = true) :
    strLtB a c = true :=
  charListLt_trans a.data b.data c.data h1 h2

theorem strLtB_irrefl (a : String) : strLtB a a = false :=
  charListLt_irrefl a.data

theorem strLtB_of_ne {a b : String} (h : a ≠ b) : strLtB a b = true ∨ strLtB b a = true :=
  charListLt_of_ne a.data b.data (fun e => h (String.ext e))

theorem strLtB_ne {a b : String} (h : strLtB a b = true) : a ≠ b := by
  intro e
  rw [e, strLtB_irrefl] at h
  exact absurd h (by simp)

theorem mem_insertUnique (x a : String) (l : List String) :
    a ∈ insertUnique x l ↔ a = x ∨ a ∈ l := by
  induction l with
  | nil => simp [insertUnique]
  | cons y ys ih =>
    simp only [insertUnique]
    by_cases h1 : x = y
    · rw [if_pos h1]
      subst h1
      simp only [List.mem_cons]
      tauto
    · rw [if_neg h1]
      by_cases h2 : strLtB x y = true
      · rw [if_pos h2]
        simp only [List.mem_cons]
      · rw [if_neg h2]
        simp only [List.mem_cons, ih]
        tauto

theorem pairwise_insertUnique (x : String) (l : List String)
    (h : l.Pairwise fun a b => strLtB a b = true) :
    (insertUnique x l).Pairwise fun a b => strLtB a b = true := by
  induction l with
  | nil => simp [insertUnique]
  | cons y ys ih =>
    rw [List.pairwise_cons] at h
    obtain ⟨hy, hys⟩ := h
    simp only [insertUnique]
    by_cases h1 : x = y
    · rw [if_pos h1]
      exact List.pairwise_cons.mpr ⟨hy, hys⟩
    · rw [if_neg h1]
      by_cases h2 : strLtB x y = true
      · rw [if_pos h2]
        refine List.pairwise_cons.mpr ⟨?_, List.pairwise_cons.mpr ⟨hy, hys⟩⟩
        intro z hz
        rcases List.mem_cons.mp hz with rfl | hz
        · exact h2
        · exact strLtB_trans h2 (hy z hz)
      · rw [if_neg h2]
        have hyx : strLtB y x = true := by
          rcases strLtB_of_ne h1 with hlt | hlt
          · exact absurd hlt h2
          · exact hlt
        refine List.pairwise_cons.mpr ⟨?_, ih hys⟩
        intro z hz
        rcases (mem_insertUnique x z ys).mp hz with rfl | hz
        · exact hyx
        · exact hy z hz

theorem npUnique_cons (a : String) (l : List String) :
    npUnique (a :: l) = insertUnique a (npUnique l) := rfl

theorem npUnique_pairwise (l : List String) :
    (npUnique l).Pairwise fun a b => strLtB a b = true := by
  induction l with
  | nil => simp [npUnique]
  | cons a t ih => exact npUnique_cons a t ▸ pairwise_insertUnique a (npUnique t) ih

theorem mem_npUnique (a : String) (l : List String) : a ∈ npUnique l ↔ a ∈ l := by
  induction l with
  | nil => simp [npUnique]
  | cons b t ih =>
    rw [npUnique_cons, mem_insertUnique, ih, List.mem_cons]

theorem npUnique_nodup (l : List String) : (npUnique l).Nodup :=
  (npUnique_pairwise l).imp fun h => strLtB_ne h

theorem flushLoop_eq (ok : String → Bool) (items : List String) : ∀ queue : List String,
    flushLoop ok queue items =
      (items.foldl (fun q r => q.erase r) queue, items.filter fun r => !ok r) := by
  induction items with
  | nil => intro q; simp [flushLoop]
  | cons r rest ih =>
    intro q
    simp only [flushLoop, ih, List.foldl_cons, List.filter_cons]
    by_cases h : ok r <;> simp [h]

theorem foldl_erase_self : ∀ l : List String, List.foldl (fun q r => q.erase r) l l = [] := by
  intro l
  induction l with
  | nil => rfl
  | cons a t ih =>
    simp only [List.foldl_cons, List.erase_cons_head]
    exact ih

theorem strEndsWith_append (a b : String) : strEndsWith (a ++ b) b = true := by
  simp [strEndsWith, String.data_append]

/-! ## Claim theorems -/

/-- Claim C1, counterexample: the claim predicts that an item whose remote
delete call raises stays in the pending-deletion queue; but flushing the
queue ["result-1"] against a service whose delete always raises leaves the
queue empty (the raised exception is converted to a warning by
`service_exception_to_warning`, after which `queue.remove(item)` runs
unconditionally), and the warning list records that the delete was attempted
and failed. -/
theorem C1_counterexample :
    "result-1" ∉ (flushDeletionQueue ["result-1"] (fun _ => false)).1 ∧
    (flushDeletionQueue ["result-1"] (fun _ => false)).2 = ["result-1"] := by
  constructor
  · decide
  · rfl

/-- Claim C1, amended: the flush performed by `save()` removes every item
from its pending-deletion queue after attempting the remote delete for that
item, whether or not the call succeeds; a failing delete is only recorded as
a warning.  Consequently the queue is always empty after the flush, and the
warned items are exactly those whose delete raised. -/
theorem C1_amended_flush (queue : List String) (ok : String → Bool) :
    (flushDeletionQueue queue ok).1 = [] ∧
    (flushDeletionQueue queue ok).2 = queue.filter fun r => !ok r := by
  unfold flushDeletionQueue
  rw [flushLoop_eq]
  exact ⟨foldl_erase_self queue, rfl⟩

/-- Claim C2: the `with self._job_futures.lock and self._analysis_futures.lock:`
statement of `add_analysis_callback` evaluates the Python expression
`A and B`, which for a truthy `A` is just `B`; so the whole composite step
runs holding only the analysis-future table lock, and the job-future table
lock is never acquired — contradicting the claim that both locks are held
for the duration of the step. -/
theorem C2_lock_acquisition :
    addAnalysisCallbackLocksHeld = [LockRef.analysisFuturesLock] ∧
    LockRef.jobFuturesLock ∉ addAnalysisCallbackLocksHeld := by
  constructor
  · rfl
  · decide

/-- Claim C5: writing to `tags` stores `np.unique(new_tags).tolist()`: a
duplicate-free (each distinct tag exactly once), order-normalized (sorted)
list with exactly the members of the input; in particular
`tags = ["x", "x", "y"]` stores `["x", "y"]`. -/
theorem C5_tags_setter (s : ExperimentData) (new_tags : List String) :
    (setTags s new_tags).tags.Nodup
    ∧ (∀ a, a ∈ (setTags s new_tags).tags ↔ a ∈ new_tags)
    ∧ ((setTags s new_tags).tags.Pairwise fun a b => strLtB a b = true)
    ∧ (setTags emptyExperimentData ["x", "x", "y"]).tags = ["x", "y"] := by
  refine ⟨npUnique_nodup new_tags, fun a => mem_npUnique a new_tags,
    npUnique_pairwise new_tags, ?_⟩
  decide

/-- Claim C7, counterexample: with one unfinished job future,
`__json_encode__` raises, but the pickle entry point `__getstate__` does not
raise — it logs a warning and still produces a serialized snapshot. -/
theorem C7_counterexample :
    jsonEncode sOutstanding = .error jsonEncodeJobsError ∧
    getstate sOutstanding = .ok (serializeED sOutstanding, [getstateJobsWarning]) :=
  ⟨rfl, rfl⟩

/-- Claim C7, amended: while any job or analysis future is not done,
`__json_encode__` raises immediately instead of producing a serialized
value; the pickle entry point `__getstate__` never raises — it always
produces a serialized snapshot, and logs warnings exactly when some future
is outstanding. -/
theorem C7_amended (s : ExperimentData) :
    (exceptIsError (jsonEncode s) = true
      ↔ (anyJobFutureNotDone s || anyAnalysisFutureNotDone s) = true)
    ∧ exceptIsError (getstate s) = false
    ∧ (∃ v w, getstate s = .ok (v, w)
        ∧ (w = [] ↔ (anyJobFutureNotDone s || anyAnalysisFutureNotDone s) = false)) := by
  refine ⟨?_, rfl, serializeED s,
    (if anyJobFutureNotDone s then [getstateJobsWarning] else []) ++
      (if anyAnalysisFutureNotDone s then [getstateAnalysisWarning] else []), rfl, ?_⟩
  · unfold jsonEncode exceptIsError
    by_cases h1 : anyJobFutureNotDone s <;> by_cases h2 : anyAnalysisFutureNotDone s <;>
      simp [h1, h2]
  · by_cases h1 : anyJobFutureNotDone s <;> by_cases h2 : anyAnalysisFutureNotDone s <;>
      simp [h1, h2]

/-- Claim C8: with no configured service, `save()` (with its default
`suppress_errors=True`) and `save_metadata()` log the no-service warning and
return without raising, leaving the container state unchanged. -/
theorem C8_no_service (s : ExperimentData) (h : s.service = none) :
    saveED s true true = .ok (s, [noServiceWarning]) ∧
    save_metadata s = .ok (s, [noServiceWarning]) := by
  constructor
  · simp [saveED, h]
  · simp [save_metadata, save_experiment_metadata, h]

/-- Witness for C8: a fresh `ExperimentData()` has no service; both save
entry points warn and return it unchanged. -/
theorem C8_no_service_witness :
    saveED emptyExperimentData true true = .ok (emptyExperimentData, [noServiceWarning]) ∧
    save_metadata emptyExperimentData = .ok (emptyExperimentData, [noServiceWarning]) :=
  C8_no_service emptyExperimentData rfl

theorem lookupKey_updateCallback (l : List (String × AnalysisCallback)) (cid : String)
    (f : AnalysisCallback → AnalysisCallback) :
    lookupKey (updateCallback l cid f) cid = (lookupKey l cid).map f := by
  induction l with
  | nil => rfl
  | cons kv rest ih =>
    simp only [updateCallback, List.map_cons]
    by_cases h : (kv.1 == cid) = true
    · simp [lookupKey, h]
    · rw [if_neg h]
      simp only [lookupKey]
      rw [if_neg h, if_neg h]
      simpa [updateCallback] using ih

theorem setKey_all {α : Type} (p : String × α → Bool) :
    ∀ (l : List (String × α)) (k : String) (v : α),
      l.all p = true → p (k, v) = true → (setKey l k v).all p = true := by
  intro l
  induction l with
  | nil =>
    intro k v _ hp
    simp [setKey, hp]
  | cons kv rest ih =>
    intro k v hall hp
    rw [List.all_cons, Bool.and_eq_true] at hall
    obtain ⟨h1, h2⟩ := hall
    simp only [setKey]
    by_cases h : (kv.1 == k) = true
    · rw [if_pos h]
      simp [List.all_cons, hp, h2]
    · rw [if_neg h]
      simp [List.all_cons, h1, ih k v h2 hp]

/-- Claim C6: when the user callback raises (traceback text `tb`), the
runner returns normally with a `false` success flag (the exception never
propagates to the caller), having set the callback status to ERROR and
recorded the error message, consisting of the context prefix followed by
the full traceback text. -/
theorem C6_callback_error (s : ExperimentData) (cid tb : String) (cb : AnalysisCallback)
    (h : lookupKey s.analysis_callbacks cid = some cb) :
    ∃ s2, runAnalysisCallback s cid true (.error tb) = .ok (s2, (cid, false))
      ∧ (lookupKey s2.analysis_callbacks cid).map AnalysisCallback.status
          = some AnalysisStatus.ERROR
      ∧ (lookupKey s2.analysis_callbacks cid).map AnalysisCallback.error_msg
          = some (some (callbackErrorPrefix s.experiment_id cid ++ tb)) := by
  simp only [runAnalysisCallback, h]
  refine ⟨_, rfl, ?_, ?_⟩
  · rw [lookupKey_updateCallback, lookupKey_updateCallback, lookupKey_updateCallback, h]
    rfl
  · rw [lookupKey_updateCallback, lookupKey_updateCallback, lookupKey_updateCallback, h]
    rfl

/-- Witness for C6: running the registered callback "cid1" of `sCallback`
with a callback that raises "boom" returns normally with a false success
flag, status ERROR and the recorded message. -/
theorem C6_callback_error_witness :
    ∃ s2, runAnalysisCallback sCallback "cid1" true (.error "boom") = .ok (s2, ("cid1", false))
      ∧ (lookupKey s2.analysis_callbacks "cid1").map AnalysisCallback.status
          = some AnalysisStatus.ERROR
      ∧ (lookupKey s2.analysis_callbacks "cid1").map AnalysisCallback.error_msg
          = some (some (callbackErrorPrefix sCallback.experiment_id "cid1" ++ "boom")) :=
  C6_callback_error sCallback "cid1" "boom" cbExample rfl

/-- Claim C9, counterexample: the claim predicts every key of the figures
mapping ends in ".svg" after any figure-inserting operation including
retrieval; but `figure("foo")` on a container whose service stores a figure
named "foo" fetches it and stores it under the key "foo" as given, which
does not end in ".svg". -/
theorem C9_counterexample :
    figureGet sFigService "foo"
        = .ok ({ sFigService with figures := [("foo", fdFoo)] }, fdFoo)
    ∧ containsKey ({ sFigService with figures := [("foo", fdFoo)] } : ExperimentData).figures
        "foo" = true
    ∧ strEndsWith "foo" ".svg" = false
    ∧ figuresSvgInvariant { sFigService with figures := [("foo", fdFoo)] } = false := by
  refine ⟨rfl, rfl, ?_, ?_⟩
  · decide
  · decide

/-- Claim C9, amended: every key inserted through `add_figures` ends in
".svg" (the suffix is appended when the resolved name lacks it), so the
all-keys-end-in-".svg" invariant is preserved by `add_figures`; keys
inserted by `figure()` retrieval are stored as requested and are not
normalized. -/
theorem C9_addFigure_svg (s : ExperimentData) (figure : FigureInput)
    (figure_name : Option String) (overwrite : Bool) (s2 : ExperimentData) (nm : String)
    (hinv : figuresSvgInvariant s = true)
    (h : addFigure s figure figure_name overwrite = .ok (s2, nm)) :
    strEndsWith nm ".svg" = true ∧ figuresSvgInvariant s2 = true := by
  simp only [addFigure] at h
  generalize hn0 : resolveFigName s figure figure_name = n0 at h
  by_cases hsv : strEndsWith n0 ".svg" = true
  · rw [if_pos hsv] at h
    by_cases hex : (containsKey s.figures n0 && !overwrite) = true
    · rw [if_pos hex] at h
      exact absurd h (by simp)
    · rw [if_neg hex] at h
      simp only [Except.ok.injEq, Prod.mk.injEq] at h
      obtain ⟨h1, h2⟩ := h
      subst h2
      refine ⟨hsv, ?_⟩
      rw [← h1]
      exact setKey_all _ s.figures n0 _ hinv hsv
  · rw [if_neg hsv] at h
    have hsv2 : strEndsWith (n0 ++ ".svg") ".svg" = true := strEndsWith_append n0 ".svg"
    by_cases hex : (containsKey s.figures (n0 ++ ".svg") && !overwrite) = true
    · rw [if_pos hex] at h
      exact absurd h (by simp)
    · rw [if_neg hex] at h
      simp only [Except.ok.injEq, Prod.mk.injEq] at h
      obtain ⟨h1, h2⟩ := h
      subst h2
      refine ⟨hsv2, ?_⟩
      rw [← h1]
      exact setKey_all _ s.figures (n0 ++ ".svg") _ hinv hsv2

/-- Witness for C9 (amended): adding a raw figure named "myfig" to an empty
container stores it under "myfig.svg" and preserves the invariant. -/
theorem C9_addFigure_svg_witness :
    strEndsWith "myfig.svg" ".svg" = true
    ∧ figuresSvgInvariant
        { emptyExperimentData with
            figures := [("myfig.svg",
              { figure := "bytes", name := some "myfig.svg" })] } = true :=
  C9_addFigure_svg emptyExperimentData (.raw "bytes") (some "myfig") false
    { emptyExperimentData with
        figures := [("myfig.svg", { figure := "bytes", name := some "myfig.svg" })] }
    "myfig.svg" rfl rfl

/-- Claim C3: `status()` is EMPTY exactly when every tracked collection
(result records, jobs, job futures, analysis callbacks, analysis futures,
figures, analysis results) is empty; otherwise it mirrors `job_status()`
whenever that is not DONE; otherwise it mirrors `analysis_status()` when
that is DONE, CANCELLED or ERROR; and in every remaining case it is
POST_PROCESSING. -/
theorem C3_status_aggregation (s : ExperimentData) :
    (statusED s = ExperimentStatus.EMPTY ↔ allContainersEmpty s = true)
    ∧ (allContainersEmpty s = false → job_status s ≠ JobStatus.DONE →
        statusED s = mirrorJobStatus (job_status s))
    ∧ (allContainersEmpty s = false → job_status s = JobStatus.DONE →
        analysis_status s ∈
          [AnalysisStatus.DONE, AnalysisStatus.CANCELLED, AnalysisStatus.ERROR] →
        statusED s = mirrorAnalysisStatus (analysis_status s))
    ∧ (allContainersEmpty s = false → job_status s = JobStatus.DONE →
        analysis_status s ∉
          [AnalysisStatus.DONE, AnalysisStatus.CANCELLED, AnalysisStatus.ERROR] →
        statusED s = ExperimentStatus.POST_PROCESSING) := by
  cases hE : allContainersEmpty s <;> cases hJ : job_status s <;> cases hA : analysis_status s <;>
    simp [statusED, hE, hJ, hA, statusOfJobStatus, statusOfAnalysisStatus,
      mirrorJobStatus, mirrorAnalysisStatus]

/-- Witness for C3: a container with one RUNNING job has status RUNNING
(mirroring the job status); one with DONE jobs and a CANCELLED callback has
status CANCELLED (mirroring the analysis status); one with DONE jobs and a
QUEUED callback is POST_PROCESSING; the fresh container is EMPTY. -/
theorem C3_status_aggregation_witness :
    statusED sRunning = mirrorJobStatus (job_status sRunning)
    ∧ statusED sCancelledAnalysis = mirrorAnalysisStatus (analysis_status sCancelledAnalysis)
    ∧ statusED sQueuedAnalysis = ExperimentStatus.POST_PROCESSING
    ∧ statusED emptyExperimentData = ExperimentStatus.EMPTY :=
  ⟨(C3_status_aggregation sRunning).2.1 (by decide) (by decide),
   (C3_status_aggregation sCancelledAnalysis).2.2.1 (by decide) (by decide) (by decide),
   (C3_status_aggregation sQueuedAnalysis).2.2.2 (by decide) (by decide) (by decide),
   (C3_status_aggregation emptyExperimentData).1.mpr (by decide)⟩

theorem containsKey_iff {α : Type} (l : List (String × α)) (k : String) :
    containsKey l k = true ↔ k ∈ l.map Prod.fst := by
  simp only [containsKey, List.any_eq_true, beq_iff_eq, List.mem_map]

theorem runJobOps_spec (ops : List JobOp) : ∀ s : ExperimentData,
    s.jobs.map Prod.fst = s.job_ids → s.job_ids.Nodup →
    ((runJobOps s ops).jobs.map Prod.fst = (runJobOps s ops).job_ids
     ∧ (runJobOps s ops).job_ids.Nodup
     ∧ ∀ x, x ∈ (runJobOps s ops).job_ids ↔ x ∈ s.job_ids ∨ x ∈ ops.map JobOp.jid) := by
  induction ops with
  | nil =>
    intro s h1 h2
    exact ⟨h1, h2, fun x => by simp [runJobOps]⟩
  | cons op rest ih =>
    intro s h1 h2
    cases op with
    | addJob j st =>
      simp only [runJobOps]
      by_cases hc : containsKey s.jobs j = true
      · have hskip : (applyAddJob s j st).1 = s := by
          simp [applyAddJob, hc]
        rw [hskip]
        obtain ⟨g1, g2, g3⟩ := ih s h1 h2
        refine ⟨g1, g2, fun x => ?_⟩
        rw [g3 x]
        have hjmem : j ∈ s.job_ids := h1 ▸ (containsKey_iff s.jobs j).mp hc
        simp only [List.map_cons, List.mem_cons, JobOp.jid]
        constructor
        · rintro (hx | hx)
          · exact Or.inl hx
          · exact Or.inr (Or.inr hx)
        · rintro (hx | rfl | hx)
          · exact Or.inl hx
          · exact Or.inl hjmem
          · exact Or.inr hx
      · have hjobs : (applyAddJob s j st).1.jobs = s.jobs ++ [(j, some st)] := by
          simp [applyAddJob, hc]
        have hids : (applyAddJob s j st).1.job_ids = s.job_ids ++ [j] := by
          simp [applyAddJob, hc]
        have hjnot : j ∉ s.job_ids := by
          rw [← h1]
          intro hm
          exact hc ((containsKey_iff s.jobs j).mpr hm)
        have h1n : (applyAddJob s j st).1.jobs.map Prod.fst = (applyAddJob s j st).1.job_ids := by
          rw [hjobs, hids, List.map_append, h1]
          rfl
        have h2n : (applyAddJob s j st).1.job_ids.Nodup := by
          rw [hids, List.nodup_append]
          exact ⟨h2, List.nodup_singleton j, by simpa using hjnot⟩
        obtain ⟨g1, g2, g3⟩ := ih _ h1n h2n
        refine ⟨g1, g2, fun x => ?_⟩
        rw [g3 x, hids]
        simp only [List.mem_append, List.mem_singleton, List.map_cons, List.mem_cons, JobOp.jid]
        tauto
    | mergeResult j =>
      simp only [runJobOps]
      by_cases hc : containsKey s.jobs j = true
      · have hskip : applyMergeResult s j = s := by
          simp [applyMergeResult, hc]
        rw [hskip]
        obtain ⟨g1, g2, g3⟩ := ih s h1 h2
        refine ⟨g1, g2, fun x => ?_⟩
        rw [g3 x]
        have hjmem : j ∈ s.job_ids := h1 ▸ (containsKey_iff s.jobs j).mp hc
        simp only [List.map_cons, List.mem_cons, JobOp.jid]
        constructor
        · rintro (hx | hx)
          · exact Or.inl hx
          · exact Or.inr (Or.inr hx)
        · rintro (hx | rfl | hx)
          · exact Or.inl hx
          · exact Or.inl hjmem
          · exact Or.inr hx
      · have hjobs : (applyMergeResult s j).jobs = s.jobs ++ [(j, none)] := by
          simp [applyMergeResult, hc]
        have hids : (applyMergeResult s j).job_ids = s.job_ids ++ [j] := by
          simp [applyMergeResult, hc]
        have hjnot : j ∉ s.job_ids := by
          rw [← h1]
          intro hm
          exact hc ((containsKey_iff s.jobs j).mpr hm)
        have h1n : (applyMergeResult s j).jobs.map Prod.fst = (applyMergeResult s j).job_ids := by
          rw [hjobs, hids, List.map_append, h1]
          rfl
        have h2n : (applyMergeResult s j).job_ids.Nodup := by
          rw [hids, List.nodup_append]
          exact ⟨h2, List.nodup_singleton j, by simpa using hjnot⟩
        obtain ⟨g1, g2, g3⟩ := ih _ h1n h2n
        refine ⟨g1, g2, fun x => ?_⟩
        rw [g3 x, hids]
        simp only [List.mem_append, List.mem_singleton, List.map_cons, List.mem_cons, JobOp.jid]
        tauto

/-- Claim C4: after any sequence of job-id-registering operations (add_jobs
calls and result merges) starting from a fresh container, every job id
stored in the jobs mapping appears in the job-id list exactly once (the key
list of the jobs mapping equals the duplicate-free job-id list), the number
of distinct stored job ids equals the number of unique ids submitted, and
submitting a duplicate id leaves the state unchanged and only flags a
warning instead of storing the id twice or raising. -/
theorem C4_job_ids_unique (ops : List JobOp) :
    ((runJobOps emptyExperimentData ops).jobs.map Prod.fst
        = (runJobOps emptyExperimentData ops).job_ids)
    ∧ (runJobOps emptyExperimentData ops).job_ids.Nodup
    ∧ (runJobOps emptyExperimentData ops).job_ids.length = (ops.map JobOp.jid).dedup.length
    ∧ (∀ t : ExperimentData, ∀ jid st, containsKey t.jobs jid = true →
        applyAddJob t jid st = (t, true)) := by
  obtain ⟨g1, g2, g3⟩ := runJobOps_spec ops emptyExperimentData rfl List.nodup_nil
  refine ⟨g1, g2, ?_, ?_⟩
  · rw [← List.toFinset_card_of_nodup g2,
      ← List.toFinset_card_of_nodup (List.nodup_dedup (ops.map JobOp.jid))]
    congr 1
    ext x
    simp only [List.mem_toFinset, List.mem_dedup]
    rw [g3 x]
    simp [emptyExperimentData]
  · intro t jid st hct
    simp [applyAddJob, hct]

/-- Witness for C4: submitting the id "a" twice and merging a result for
"b" stores two distinct ids, matching the two unique ids submitted; adding
"a" again to a container that already stores it leaves the container
unchanged and flags the duplicate warning. -/
theorem C4_job_ids_unique_witness :
    (runJobOps emptyExperimentData opsExample).job_ids.length
        = (opsExample.map JobOp.jid).dedup.length
    ∧ applyAddJob sJobA "a" JobStatus.DONE = (sJobA, true) :=
  ⟨(C4_job_ids_unique opsExample).2.2.1,
   (C4_job_ids_unique opsExample).2.2.2 sJobA "a" JobStatus.DONE (by decide)⟩

theorem applyMergeResult_result_data (s : ExperimentData) (jid : String) :
    (applyMergeResult s jid).result_data = s.result_data := by
  simp only [applyMergeResult]
  split <;> rfl

theorem addDataLoop_result_data_mono (data : List Datum) : ∀ s : ExperimentData,
    ∃ ext, (addDataLoop s data).1.result_data = s.result_data ++ ext := by
  induction data with
  | nil =>
    intro s
    exact ⟨[], by simp [addDataLoop]⟩
  | cons d rest ih =>
    intro s
    cases d with
    | dict d0 =>
      obtain ⟨ext, hext⟩ := ih { s with result_data :=
        s.result_data ++ [{ payload := d0, job_id := none }] }
      exact ⟨{ payload := d0, job_id := none } :: ext, by simp [addDataLoop, hext]⟩
    | result jid recs =>
      obtain ⟨ext, hext⟩ := ih (add_result_data s jid recs)
      refine ⟨recs.map (fun r => { payload := r, job_id := some jid }) ++ ext, ?_⟩
      have hstep : addDataLoop s (Datum.result jid recs :: rest)
          = addDataLoop (add_result_data s jid recs) rest := rfl
      have hrd : (add_result_data s jid recs).result_data
          = s.result_data ++ recs.map (fun r => { payload := r, job_id := some jid }) := by
        simp only [add_result_data, applyMergeResult_result_data]
      rw [hstep, hext, hrd, List.append_assoc]
    | invalid t =>
      exact ⟨[], by simp [addDataLoop]⟩

/-- Claim C10: `add_data` is not atomic on a caller-input error: when the
input list consists of valid entries followed by an element of an invalid
type, the call raises `TypeError`, but every dict entry positioned before
the invalid element has already been appended to the result-record list and
is still stored when the error is raised. -/
theorem C10_add_data_nonatomic (s : ExperimentData) (pre post : List Datum) (t : String)
    (hpre : ∀ d ∈ pre, d.isInvalid = false) :
    (add_data s (pre ++ Datum.invalid t :: post)).2
        = some ("Invalid data type " ++ t ++ ".")
    ∧ ∀ d, Datum.dict d ∈ pre →
        ({ payload := d, job_id := none } : ResultRecord)
          ∈ (add_data s (pre ++ Datum.invalid t :: post)).1.result_data := by
  induction pre generalizing s with
  | nil =>
    refine ⟨rfl, ?_⟩
    intro d hd
    simp at hd
  | cons d0 pre2 ih =>
    have hpre2 : ∀ d ∈ pre2, d.isInvalid = false :=
      fun d hd => hpre d (List.mem_cons_of_mem d0 hd)
    cases d0 with
    | dict dd =>
      have hstep : add_data s ((Datum.dict dd :: pre2) ++ Datum.invalid t :: post)
          = add_data { s with result_data :=
              s.result_data ++ [{ payload := dd, job_id := none }] }
            (pre2 ++ Datum.invalid t :: post) := rfl
      rw [hstep]
      obtain ⟨g1, g2⟩ := ih { s with result_data :=
        s.result_data ++ [{ payload := dd, job_id := none }] } hpre2
      refine ⟨g1, ?_⟩
      intro d hd
      rcases List.mem_cons.mp hd with heq | hd2
      · injection heq with hdd
        subst hdd
        obtain ⟨ext, hext⟩ := addDataLoop_result_data_mono (pre2 ++ Datum.invalid t :: post)
          { s with result_data := s.result_data ++ [{ payload := d, job_id := none }] }
        show ({ payload := d, job_id := none } : ResultRecord)
          ∈ (addDataLoop { s with result_data :=
              s.result_data ++ [{ payload := d, job_id := none }] }
            (pre2 ++ Datum.invalid t :: post)).1.result_data
        rw [hext]
        simp
      · exact g2 d hd2
    | result jid recs =>
      have hstep : add_data s ((Datum.result jid recs :: pre2) ++ Datum.invalid t :: post)
          = add_data (add_result_data s jid recs) (pre2 ++ Datum.invalid t :: post) := rfl
      rw [hstep]
      obtain ⟨g1, g2⟩ := ih (add_result_data s jid recs) hpre2
      refine ⟨g1, ?_⟩
      intro d hd
      rcases List.mem_cons.mp hd with heq | hd2
      · exact absurd heq (by simp)
      · exact g2 d hd2
    | invalid tt =>
      have := hpre (Datum.invalid tt) (List.mem_cons_self _ _)
      simp [Datum.isInvalid] at this

/-- Witness for C10: adding the list [dict "r0", int-typed junk] to a fresh
container raises the TypeError for the junk element, and the record for
"r0" is stored in the result list at that point. -/
theorem C10_add_data_nonatomic_witness :
    (add_data emptyExperimentData ([Datum.dict "r0"] ++ Datum.invalid "int" :: [])).2
        = some ("Invalid data type " ++ "int" ++ ".")
    ∧ ({ payload := "r0", job_id := none } : ResultRecord)
        ∈ (add_data emptyExperimentData
            ([Datum.dict "r0"] ++ Datum.invalid "int" :: [])).1.result_data :=
  ⟨(C10_add_data_nonatomic emptyExperimentData [Datum.dict "r0"] [] "int" (by decide)).1,
   (C10_add_data_nonatomic emptyExperimentData [Datum.dict "r0"] [] "int" (by decide)).2
     "r0" (by decide)⟩
